import Mathlib

/-!
Verification of the adaptive multicall batching engine
(`multicall.py` / `call.py`).

The Python source is shallowly embedded below.  Conventions:
* `Call` is opaque: the batcher and the orchestration engine never inspect a
  call's fields (targets/calldata are consumed only inside the aggregator
  dispatch, which is modelled as an oracle), so call identity is all we need.
* Python `None` results are modelled by `Value.vnull`; a Python function that
  can raise is modelled with an `Option`/`Except` result.
* Python ints are `Int` (the controller's `step` can become negative);
  list slices use Python slice-clamping semantics (`pySlice`).
-/

namespace Multicall

/-- Opaque identity of one `Call` object.  `NotSoBrightBatcher` and the
`Multicall` engine treat calls as opaque list elements; the fields
(`target`, `data`, ...) are only read inside the aggregate dispatch,
which is modelled as an oracle (`Network`). -/
abbrev Call := Nat

/-- Raw byte strings (`bytes`). -/
abbrev Bytes := List Nat

/-- Caller-facing decoded value: Python `None`, an opaque scalar,
a list of values, or an insertion-ordered dict. -/
inductive Value where
  | vnull
  | atom (n : Nat)
  | list (vs : List Value)
  | dict (entries : List (String × Value))

/-! ## NotSoBrightBatcher (multicall.py lines 21-68) -/

/-- Python slice index clamping: a negative bound counts from the end
(clamped at 0), a nonnegative bound is clamped at the length. -/
def pyIdx (len : Nat) (i : Int) : Nat :=
  if i < 0 then ((len : Int) + i).toNat else min i.toNat len

/-- Python `l[a:b]`. -/
def pySlice {α : Type} (l : List α) (a b : Int) : List α :=
  (l.take (pyIdx l.length b)).drop (pyIdx l.length a)

/-- The `while True` loop body of `NotSoBrightBatcher.batch_calls`:
`end = start + step; batches.append(calls[start:end]);
if end >= done: return batches; start = end` with `done = len(calls) - 1`.
The Python loop diverges when `step <= 0` and `len(calls) >= 2`; we give it
`calls.length + 1` iterations of fuel, which is enough in every case where
the Python loop terminates (with `step >= 1` it runs at most
`ceil((len-1)/step) <= len` iterations). -/
def batchGo (calls : List Call) (step start : Int) : Nat → List (List Call)
  | 0 => []
  | fuel + 1 =>
    let e := start + step
    let batch := pySlice calls start e
    if (calls.length : Int) - 1 ≤ e then [batch]
    else batch :: batchGo calls step e fuel

/-- Embeds `NotSoBrightBatcher.batch_calls(calls, step)`. -/
def batch_calls (calls : List Call) (step : Int) : List (List Call) :=
  batchGo calls step 0 (calls.length + 1)

/-- Embeds `NotSoBrightBatcher.split_calls(calls)`:
`center = len(calls) // 2; return calls[:center], calls[center:]`. -/
def split_calls (calls : List Call) : List Call × List Call :=
  (calls.take (calls.length / 2), calls.drop (calls.length / 2))

/-- Model of Python `round(n * 0.99)` for a nonnegative int `n`:
round-half-to-even on the exact rational `99*n/100`.
(CPython evaluates `n * 0.99` in binary floating point, which agrees with
the exact rational except possibly at exact `.5` ties, i.e. `n ≡ 50
(mod 100)`, where the float product falls slightly below the tie.  Both the
spec and the source write the same expression `round(len(calls) * 0.99)`,
so every claim below is insensitive to that choice.) -/
def round099 (n : Nat) : Nat :=
  if 50 < 99 * n % 100 then 99 * n / 100 + 1
  else if 99 * n % 100 < 50 then 99 * n / 100
  else if 99 * n / 100 % 2 = 0 then 99 * n / 100 else 99 * n / 100 + 1

/-- Value `NotSoBrightBatcher.__init__` assigns: `self.step = 10000`. -/
def initial_step : Int := 10000

/-- Embeds `NotSoBrightBatcher.rebatch(calls)`.  The mutable `self.step` is passed
in and the (possibly updated) step is returned alongside the batches. -/
def rebatch (step : Int) (calls : List Call) : Int × List (List Call) :=
  if step ≤ ((calls.length / 2 : Nat) : Int) then
    (step, batch_calls calls step)
  else
    let step' : Int :=
      if (calls.length : Int) ≤ step then
        (if 100 ≤ calls.length then (round099 calls.length : Int)
         else (calls.length : Int) - 1)
      else step
    (step', [(split_calls calls).1, (split_calls calls).2])

/-! ## FailureClassifier (`_raise_or_proceed`, multicall.py lines 71-94) -/

/-- Lowercasing `str(e).lower()` of an error message (as a character list). -/
def lower (s : List Char) : List Char := s.map Char.toLower

/-- The `rebatch_triggers` list from `_raise_or_proceed`. -/
def rebatch_triggers : List (List Char) :=
  ["request entity too large".data, "payload too large".data,
   "time-out".data, "timeout".data,
   "broken pipe".data, "connection reset by peer".data,
   "out of gas".data, "out of memory".data,
   "server error".data]

/-- Python's substring test `sub in s`. -/
def containsSub (sub s : List Char) : Bool := decide (sub <:+: s)

/-- Embeds `_raise_or_proceed(e, ct_calls)`: `true` means the function returns
normally (proceed with re-batching); `false` means the exception is
re-raised.  `error_str = str(e).lower()` is inlined as `lower msg`. -/
def raise_or_proceed (msg : List Char) (ct_calls : Nat) : Bool :=
  if rebatch_triggers.any (fun t => containsSub t (lower msg)) then
    if containsSub ("out of gas".data) (lower msg) && ct_calls == 1 then false
    else true
  else false

/-! ## Call.decode_output (call.py lines 67-94) -/

/-- A Python postprocess handler.  Python handlers are duck-typed: the code
calls `handler(value)` when `success is None` and `handler(success, value)`
otherwise, so a handler is modelled with both entry points. -/
structure Handler where
  callOne : Value → Value
  callTwo : Bool → Value → Value

/-- Type of `returns`: the optional ordered `(name, handler)` decode spec
(`handler` itself optional, Python `None`). -/
abbrev ReturnsSpec := Option (List (String × Option Handler))

/-- Python truthiness of `returns` (`None` and `[]` are falsy). -/
def truthy (returns : ReturnsSpec) : Bool :=
  match returns with
  | some (_ :: _) => true
  | _ => false

/-- Embeds `len(returns) if returns else 1` (note: an *empty* `returns` list is
falsy in Python, hence yields 1). -/
def retLen (returns : ReturnsSpec) : Nat :=
  match returns with
  | some (r :: rest) => (r :: rest).length
  | _ => 1

/-- The two `apply_handler` lambdas of `decode_output`: `two` records which
lambda was selected (from the *original* `success`), while `succ` is the
current value of the `success` variable at call time (the lambdas capture
it by reference, and the `except` branch may have set it to `False`). -/
def apply_handler (two : Bool) (succ : Option Bool) (h : Handler) (v : Value) : Value :=
  if two then h.callTwo (succ.getD false) v else h.callOne v

/-- The `success`/`decoded` pair after the decode block of `decode_output`:
`if success is None or success: try: decoded = signature.decode_data(output)
except: success, decoded = False, [None] * (len(returns) if returns else 1)
else: decoded = [None] * ...`.
`decodeData` is the outcome of `signature.decode_data(output)` (`none` when
the external ABI decoder raises). -/
def decoded_pair (decodeData : Option (List Value)) (returns : ReturnsSpec)
    (success : Option Bool) : Option Bool × List Value :=
  if success.isNone || success == some true then
    match decodeData with
    | some d => (success, d)
    | none => (some false, List.replicate (retLen returns) Value.vnull)
  else (success, List.replicate (retLen returns) Value.vnull)

/-- Embeds `Call.decode_output(output, signature, returns, success)`.
Result `none` models the one uncaught exception path: `decoded[0]` on an
empty `decoded` list. -/
def decode_output (decodeData : Option (List Value)) (returns : ReturnsSpec)
    (success : Option Bool) : Option Value :=
  if truthy returns then
    some (Value.dict
      (((returns.getD []).zip (decoded_pair decodeData returns success).2).map
        fun p =>
          (p.1.1,
           match p.1.2 with
           | some h =>
               apply_handler success.isSome
                 (decoded_pair decodeData returns success).1 h p.2
           | none => p.2)))
  else
    match (decoded_pair decodeData returns success).2 with
    | [] => none
    | [v] => some v
    | vs => some (Value.list vs)

/-! ## Multicall engine (multicall.py lines 97-199)

`Multicall.fetch_outputs` dispatches one aggregate request per batch
through `self.aggregate.coroutine` and, on a rebatch-classified failure,
recursively retries the sub-batches produced by `rebatch`.  The network
round trip is modelled as an oracle (`Network`); the per-call
`Call.decode_output` application inside the `for` loop (together with its
surrounding per-call `try/except`) is modelled as an oracle
(`Decoder`, `none` = that call's decode raised, caught, appended `None`).
Recursion through failing dispatches is not structurally bounded in the
source, so the embedding takes a recursion-depth `fuel`; the `gather` of
sub-batches is serialized left-to-right (one admissible interleaving of
the concurrent `asyncio.gather`), threading the shared `batcher.step`. -/

/-- Outcome of one `aggregate.coroutine(args)` round trip: per-call
`(success, output)` pairs, or a raised exception with message `msg`. -/
inductive DispatchOutcome where
  | ok (outputs : List (Bool × Bytes))
  | err (msg : List Char)

/-- Network oracle: the aggregate dispatch outcome for a given batch. -/
abbrev Network := List Call → DispatchOutcome

/-- Per-call decode oracle: `Call.decode_output(output, call.signature,
call.returns, success)`; `none` means it raised. -/
abbrev Decoder := Call → Bool → Bytes → Option Value

/-- How one `fetch_outputs` invocation can fail. -/
inductive EngineError where
  | fatal (msg : List Char)
  | outOfFuel

/-- The observable outcome of `fetch_outputs`: the final value of the
shared `batcher.step`, the ordered list of batches dispatched to the
aggregator (the dispatch trace), and the results or the raised error. -/
structure FetchResult where
  step : Int
  trace : List (List Call)
  out : Except EngineError (List Value)

/-- The `gather(*[self.fetch_outputs(batch) for batch in ...])` + flatten
pattern, serialized left-to-right over a given `fetch` function. -/
def gather {α : Type} (fetch : Int → List α → FetchResult) :
    Int → List (List α) → FetchResult
  | step, [] => ⟨step, [], .ok []⟩
  | step, b :: bs =>
    let r1 := fetch step b
    match r1.out with
    | .error e => ⟨r1.step, r1.trace, .error e⟩
    | .ok vs =>
      let r2 := gather fetch r1.step bs
      match r2.out with
      | .error e => ⟨r2.step, r1.trace ++ r2.trace, .error e⟩
      | .ok vss => ⟨r2.step, r1.trace ++ r2.trace, .ok (vs ++ vss)⟩

/-- Embeds `Multicall.fetch_outputs(calls)`.  On a successful dispatch, the
`for i, (call, (success, output)) in enumerate(zip(calls, outputs))` loop
appends the decoded result, or `None` when decoding raises.  On a failed
dispatch, `_raise_or_proceed` either re-raises or the batch is rebatched
and each sub-batch is fetched recursively. -/
def fetch_outputs (net : Network) (dec : Decoder) :
    Nat → Int → List Call → FetchResult
  | 0, step, _ => ⟨step, [], .error .outOfFuel⟩
  | fuel + 1, step, calls =>
    match net calls with
    | .ok outputs =>
      ⟨step, [calls],
        .ok ((calls.zip outputs).map
          fun p => (dec p.1 p.2.1 p.2.2).getD Value.vnull)⟩
    | .err msg =>
      if raise_or_proceed msg calls.length then
        let r := rebatch step calls
        let sub := gather (fun s b => fetch_outputs net dec fuel s b) r.1 r.2
        ⟨sub.step, calls :: sub.trace, sub.out⟩
      else ⟨step, [calls], .error (.fatal msg)⟩

/-- Embeds `Multicall.coroutine()` on a freshly constructed `Multicall` (whose
`NotSoBrightBatcher` starts with `step = 10000`): partition with the
current step, gather `fetch_outputs` over all batches, flatten. -/
def run (net : Network) (dec : Decoder) (fuel : Nat) (calls : List Call) :
    FetchResult :=
  gather (fun s b => fetch_outputs net dec fuel s b) initial_step
    (batch_calls calls initial_step)

/-! ## Helper lemmas -/

lemma round099_le_sub_one (n : Nat) (h : 100 ≤ n) : round099 n ≤ n - 1 := by
  unfold round099
  split_ifs <;> omega

lemma zip_replicate_self {α β : Type} (l : List α) (b : β) :
    l.zip (List.replicate l.length b) = l.map fun x => (x, b) := by
  induction l with
  | nil => rfl
  | cons x t ih => simp [List.replicate_succ, ih]

lemma zip_map_self {α β : Type} (l : List α) (f : α → β) :
    l.zip (l.map f) = l.map fun x => (x, f x) := by
  induction l with
  | nil => rfl
  | cons x t ih => simp [ih]

/-! ## Claims about the batch controller -/

/-- C2 (code bug).  The claim says `batch_calls` on `N` calls with size
`S ≥ 1` produces `ceil(N/S)` chunks whose concatenation reproduces the
input.  The code computes `done = len(calls) - 1` and exits when
`end >= done`, so whenever the final chunk would contain exactly one call
that call is silently dropped: 3 calls with size 2 yield the single chunk
`[[0, 1]]` (the claim requires `ceil(3/2) = 2` chunks `[[0, 1], [2]]`). -/
theorem C2_batch_calls_drops_last :
    batch_calls [0, 1, 2] 2 = [[0, 1]] ∧
    (batch_calls [0, 1, 2] 2).length ≠ 2 := by
  constructor <;> decide

/-- C3 counterexample.  The claim says that whenever
`step > len(calls) // 2`, `rebatch` shrinks `step` (to
`len(calls) - 1` when `len(calls) < 100`).  With 10 calls and `step = 7`
the code takes neither branch guard (`7 > 5` but `7 < 10`), so it returns
the two halves *without* shrinking: the resulting step is 7, not `10 - 1`. -/
theorem C3_counterexample :
    (rebatch 7 (List.range 10)).1 = 7 ∧
    (rebatch 7 (List.range 10)).1 ≠ 10 - 1 := by
  constructor <;> decide

/-- C3 (amended).  `rebatch` has three cases: if `step ≤ len // 2` it
re-partitions with the unchanged step; otherwise it returns the two halves
(sizes `⌊B/2⌋` and `B - ⌊B/2⌋`), shrinking `step` (to `round(B*0.99)` when
`B ≥ 100`, else `B - 1`) only when additionally `step ≥ len(calls)`; in
the middle range `len // 2 < step < len` the step is left unchanged. -/
theorem C3_rebatch_decision (step : Int) (calls : List Call) :
    (step ≤ ((calls.length / 2 : Nat) : Int) →
      rebatch step calls = (step, batch_calls calls step)) ∧
    (((calls.length / 2 : Nat) : Int) < step → step < (calls.length : Int) →
      rebatch step calls =
        (step, [calls.take (calls.length / 2), calls.drop (calls.length / 2)])) ∧
    (((calls.length / 2 : Nat) : Int) < step → (calls.length : Int) ≤ step →
      rebatch step calls =
        ((if 100 ≤ calls.length then (round099 calls.length : Int)
          else (calls.length : Int) - 1),
         [calls.take (calls.length / 2), calls.drop (calls.length / 2)])) ∧
    (calls.take (calls.length / 2)).length = calls.length / 2 ∧
    (calls.drop (calls.length / 2)).length = calls.length - calls.length / 2 := by
  refine ⟨fun h1 => ?_, fun h1 h2 => ?_, fun h1 h2 => ?_, ?_, ?_⟩
  · rw [rebatch, if_pos h1]
  · rw [rebatch, if_neg (by omega), if_neg (by omega)]
    simp [split_calls]
  · rw [rebatch, if_neg (by omega), if_pos h2]
    simp [split_calls]
  · simp [List.length_take]
    omega
  · simp [List.length_drop]

/-- C3 witness: with 10 calls and `step = 12` (`12 ≥ 10 ≥ 100` is
false), the step shrinks to `10 - 1 = 9` and the two halves come back. -/
theorem C3_rebatch_decision_witness :
    rebatch 12 (List.range 10) =
      (9, [[0, 1, 2, 3, 4], [5, 6, 7, 8, 9]]) :=
  ((C3_rebatch_decision 12 (List.range 10)).2.2.1 (by decide)
    (by decide)).trans (by decide)

/-- C7 (confirmed).  The controller's step starts at the default 10000
and no operation increases it: `batch_calls` and `split_calls` neither read
nor write `step` (see their signatures above), and `rebatch` — the only
mutator — either leaves the step unchanged or strictly decreases it. -/
theorem C7_step_monotone (step : Int) (calls : List Call) :
    initial_step = 10000 ∧
    ((rebatch step calls).1 = step ∨ (rebatch step calls).1 < step) := by
  refine ⟨rfl, ?_⟩
  rw [rebatch]
  split_ifs with h1 h2 h3
  · exact Or.inl rfl
  · right
    have h4 := round099_le_sub_one calls.length h3
    simp only
    omega
  · right
    simp only
    omega
  · exact Or.inl rfl

/-! ## Claims about the failure classifier -/

/-- C4 (confirmed).  `_raise_or_proceed` proceeds (Rebatch) iff the
lowercased error message contains one of the trigger markers and it is not
the case that it contains `"out of gas"` with exactly one call; in every
other case the error is re-raised — and at the engine level, an
out-of-gas failure on a batch of size 1 comes back as a fatal error after
exactly one dispatch, with no retry. -/
theorem C4_classifier (msg : List Char) (n : Nat) (net : Network)
    (dec : Decoder) (f : Nat) (step : Int) (c : Call) :
    (raise_or_proceed msg n = true ↔
      ((∃ t ∈ rebatch_triggers, t <:+: lower msg) ∧
        ¬(("out of gas".data <:+: lower msg) ∧ n = 1))) ∧
    (net [c] = DispatchOutcome.err msg →
     "out of gas".data <:+: lower msg →
      (fetch_outputs net dec (f + 1) step [c]).out =
        Except.error (EngineError.fatal msg) ∧
      (fetch_outputs net dec (f + 1) step [c]).trace = [[c]]) := by
  have hgasmem : "out of gas".data ∈ rebatch_triggers := by decide
  constructor
  · unfold raise_or_proceed containsSub
    simp only [List.any_eq_true, decide_eq_true_eq, Bool.and_eq_true,
      beq_iff_eq]
    split_ifs with hA hB
    · simp only [Bool.false_eq_true, false_iff]
      intro h
      exact h.2 hB
    · simp only [true_iff]
      exact ⟨hA, hB⟩
    · simp only [Bool.false_eq_true, false_iff]
      intro h
      exact hA h.1
  · intro hnet hgas
    have hfalse : raise_or_proceed msg 1 = false := by
      unfold raise_or_proceed containsSub
      simp only [List.any_eq_true, decide_eq_true_eq, Bool.and_eq_true,
        beq_iff_eq]
      rw [if_pos ⟨_, hgasmem, hgas⟩, if_pos ⟨hgas, trivial⟩]
    simp only [fetch_outputs]
    rw [hnet]
    simp [hfalse]

/-- A network oracle whose every dispatch raises "out of gas". -/
def gasNet : Network := fun _ => DispatchOutcome.err ("out of gas".data)

/-- A per-call decode oracle that always succeeds. -/
def dec0 : Decoder := fun c _ _ => some (Value.atom c)

/-- C4 witness: at the concrete message `"out of gas"` and batch `[0]`
the classifier re-raises and the engine returns the fatal error after a
single dispatch. -/
theorem C4_classifier_witness :
    raise_or_proceed ("out of gas".data) 1 = false ∧
    (fetch_outputs gasNet dec0 1 10000 [0]).out =
      Except.error (EngineError.fatal ("out of gas".data)) ∧
    (fetch_outputs gasNet dec0 1 10000 [0]).trace = [[0]] := by
  have h := (C4_classifier ("out of gas".data) 1 gasNet dec0 0 10000 0).2
    rfl (by decide)
  exact ⟨by decide, h.1, h.2⟩

/-! ## C10: rebatching a single-call batch -/

lemma mem_of_head_eq {α : Type} {l : List α} {a : α}
    (h : l.head? = some a) : a ∈ l := by
  cases l with
  | nil => simp at h
  | cons x t =>
    simp only [List.head?_cons, Option.some_inj] at h
    simp [h]

lemma fetch_outputs_trace_head (net : Network) (dec : Decoder) (f : Nat)
    (step : Int) (calls : List Call) :
    (fetch_outputs net dec (f + 1) step calls).trace.head? = some calls := by
  simp only [fetch_outputs]
  cases h : net calls with
  | ok outputs => rfl
  | err msg =>
    by_cases hp : raise_or_proceed msg calls.length = true
    · simp [hp]
    · simp [hp]

lemma gather_fetch_trace_head (net : Network) (dec : Decoder) (f : Nat)
    (st : Int) (b : List Call) (bs : List (List Call)) :
    (gather (fun s x => fetch_outputs net dec (f + 1) s x) st
        (b :: bs)).trace.head? = some b := by
  simp only [gather]
  have h1 := fetch_outputs_trace_head net dec f st b
  cases htr : (fetch_outputs net dec (f + 1) st b).trace with
  | nil => rw [htr] at h1; simp at h1
  | cons x t =>
    rw [htr] at h1
    simp only [List.head?_cons, Option.some_inj] at h1
    cases (fetch_outputs net dec (f + 1) st b).out with
    | error e => simp [htr, h1]
    | ok vs =>
      cases (gather (fun s x => fetch_outputs net dec (f + 1) s x)
          (fetch_outputs net dec (f + 1) st b).step bs).out with
      | error e => simp [htr, h1]
      | ok vss => simp [htr, h1]

/-- C10 (confirmed).  For a failing single-call batch with `step ≥ 1`,
`rebatch` sets the step to `1 - 1 = 0` and returns the sub-batches
`[[], [c]]` (`split_calls` always splits into sizes `⌊n/2⌋` and
`n - ⌊n/2⌋`), and the engine then dispatches the empty first sub-batch as
an aggregate request of zero calls. -/
theorem C10_single_call_rebatch (step : Int) (c : Call) (calls : List Call)
    (net : Network) (dec : Decoder) (f : Nat) (msg : List Char)
    (hstep : 1 ≤ step) (hnet : net [c] = DispatchOutcome.err msg)
    (hcls : raise_or_proceed msg 1 = true) :
    rebatch step [c] = (0, [[], [c]]) ∧
    (split_calls calls).1.length = calls.length / 2 ∧
    (split_calls calls).2.length = calls.length - calls.length / 2 ∧
    [] ∈ (fetch_outputs net dec (f + 2) step [c]).trace := by
  have hreb : rebatch step [c] = (0, [[], [c]]) := by
    rw [rebatch, if_neg (by simp; omega), if_pos (by simp; omega)]
    norm_num [split_calls]
  refine ⟨hreb, ?_, ?_, ?_⟩
  · simp [split_calls, List.length_take]
    omega
  · simp [split_calls, List.length_drop]
  · simp only [fetch_outputs]
    rw [hnet]
    simp only [List.length_cons, List.length_nil, hcls, if_true, hreb]
    have hh := gather_fetch_trace_head net dec f 0 [] [[c]]
    exact List.mem_cons_of_mem _ (mem_of_head_eq hh)

/-- A network oracle whose every dispatch times out. -/
def errNet : Network := fun _ => DispatchOutcome.err ("timeout".data)

/-- C10 witness at `step = 1`, the batch `[0]`, a three-call list for
the split sizes, and a timeout failure. -/
theorem C10_single_call_rebatch_witness :
    rebatch 1 [0] = (0, [[], [0]]) ∧
    (split_calls [5, 6, 7]).1.length = [5, 6, 7].length / 2 ∧
    (split_calls [5, 6, 7]).2.length =
      [5, 6, 7].length - [5, 6, 7].length / 2 ∧
    [] ∈ (fetch_outputs errNet dec0 2 1 [0]).trace :=
  C10_single_call_rebatch 1 0 [5, 6, 7] errNet dec0 0 ("timeout".data)
    (by norm_num) rfl (by decide)

/-! ## Claims about the decode contract -/

/-- C8 (confirmed).  With a successful (or unknown-but-decodable)
result and no `returns` spec, `decode_output` returns the single decoded
value as a scalar when exactly one value was decoded, and the full ordered
list when two or more were. -/
theorem C8_decode_no_returns (decodeData : Option (List Value))
    (d : List Value) (success : Option Bool)
    (hd : decodeData = some d)
    (hs : success = some true ∨ success = none) :
    (∀ v, d = [v] → decode_output decodeData none success = some v) ∧
    (2 ≤ d.length → decode_output decodeData none success =
      some (Value.list d)) := by
  subst hd
  have hpair : decoded_pair (some d) none success = (success, d) := by
    rcases hs with h | h <;> subst h <;> rfl
  constructor
  · rintro v rfl
    simp [decode_output, truthy, hpair]
  · intro h2
    match d, h2 with
    | v1 :: v2 :: rest, _ =>
      simp [decode_output, truthy, hpair]

/-- C8 witness at one and at two decoded values. -/
theorem C8_decode_no_returns_witness :
    decode_output (some [Value.atom 3]) none (some true) =
      some (Value.atom 3) ∧
    decode_output (some [Value.atom 1, Value.atom 2]) none none =
      some (Value.list [Value.atom 1, Value.atom 2]) :=
  ⟨(C8_decode_no_returns (some [Value.atom 3]) [Value.atom 3] (some true)
      rfl (Or.inl rfl)).1 (Value.atom 3) rfl,
   (C8_decode_no_returns (some [Value.atom 1, Value.atom 2])
      [Value.atom 1, Value.atom 2] none rfl (Or.inr rfl)).2 (by decide)⟩

/-- C9 (confirmed).  With `success = false` and a non-empty `returns`
spec of length `K` with distinct names, decoding is skipped and the result
is a mapping of exactly `K` entries in spec order: a name with a
postprocess handler is bound to `handler(success, None)` (i.e.
`callTwo false vnull`), a name without one to the `None` placeholder. -/
theorem C9_decode_failure (rs : List (String × Option Handler)) (K : Nat)
    (decodeData : Option (List Value))
    (hK : rs.length = K) (hne : rs ≠ [])
    (hnodup : (rs.map Prod.fst).Nodup) :
    decode_output decodeData (some rs) (some false) =
      some (Value.dict (rs.map fun q =>
        (q.1, match q.2 with
              | some h => h.callTwo false Value.vnull
              | none => Value.vnull))) ∧
    (rs.map fun q =>
        (q.1, match q.2 with
              | some h => h.callTwo false Value.vnull
              | none => Value.vnull)).length = K := by
  rcases rs with _ | ⟨r, rest⟩
  · exact absurd rfl hne
  refine ⟨?_, by simpa using hK⟩
  have hpair : decoded_pair decodeData (some (r :: rest)) (some false) =
      (some false, List.replicate (r :: rest).length Value.vnull) := by
    rfl
  rw [decode_output,
    if_pos (show truthy (some (r :: rest)) = true from rfl), hpair]
  simp only [Option.getD_some]
  rw [zip_replicate_self (r :: rest) Value.vnull, List.map_map]
  refine congrArg _ (congrArg _ (List.map_congr_left fun q _ => ?_))
  rcases q with ⟨name, _ | h⟩ <;> rfl

/-- A concrete postprocess handler for the C9 witness. -/
def hA : Handler := ⟨fun v => v, fun _ _ => Value.atom 1⟩

/-- C9 witness at a two-entry spec, one entry with a handler and one
without. -/
theorem C9_decode_failure_witness :
    decode_output (some [Value.atom 5])
        (some [("a", some hA), ("b", none)]) (some false) =
      some (Value.dict ([("a", some hA), ("b", none)].map fun q =>
        (q.1, match q.2 with
              | some h => h.callTwo false Value.vnull
              | none => Value.vnull))) ∧
    ([(("a" : String), some hA), ("b", none)].map fun q =>
        (q.1, match q.2 with
              | some h => h.callTwo false Value.vnull
              | none => Value.vnull)).length = 2 :=
  C9_decode_failure [("a", some hA), ("b", none)] 2 (some [Value.atom 5])
    rfl (by simp) (by simp)

/-! ## Claims about the orchestration engine -/

/-- A network oracle whose every dispatch succeeds, returning a
`(True, bytes)` pair per call. -/
def okNet : Network := fun calls => .ok (calls.map fun c => (true, [c]))

/-- C6 (confirmed).  When a batch's dispatch succeeds, each call is
decoded independently: a call whose decode raises contributes `None`
(`vnull`) in place, the other calls are still decoded, and the batch is
neither aborted (the result is `ok`) nor retried (exactly one dispatch
occurs and the step is untouched). -/
theorem C6_per_call_decode_isolation (net : Network) (dec : Decoder)
    (f : Nat) (step : Int) (calls : List Call)
    (outputs : List (Bool × Bytes))
    (hnet : net calls = DispatchOutcome.ok outputs) :
    ∃ res,
      (fetch_outputs net dec (f + 1) step calls).out = .ok res ∧
      (fetch_outputs net dec (f + 1) step calls).trace = [calls] ∧
      (fetch_outputs net dec (f + 1) step calls).step = step ∧
      res.length = min calls.length outputs.length ∧
      ∀ (i : Nat) (h1 : i < calls.length) (h2 : i < outputs.length),
        res[i]? =
          some ((dec calls[i] (outputs[i]).1 (outputs[i]).2).getD
            Value.vnull) := by
  simp only [fetch_outputs]
  rw [hnet]
  refine ⟨_, rfl, rfl, rfl, ?_, ?_⟩
  · simp [List.length_zip]
  · intro i h1 h2
    have hlen : i < ((calls.zip outputs).map
        fun p => (dec p.1 p.2.1 p.2.2).getD Value.vnull).length := by
      simp [List.length_zip]
      omega
    rw [List.getElem?_eq_getElem hlen]
    simp [List.getElem_zip]

/-- A network oracle for the C6 witness: call 0 succeeds, call 1 comes
back with `success = False`. -/
def mixNet : Network := fun calls => .ok (calls.map fun c => (c == 0, [c]))

/-- A decode oracle that raises exactly on unsuccessful calls. -/
def dec1 : Decoder := fun c s _ => if s then some (Value.atom c) else none

/-- C6 witness on the batch `[0, 1]`: call 1's decode raises and
becomes `vnull`; call 0 still decodes; one dispatch, step unchanged. -/
theorem C6_per_call_decode_isolation_witness :
    ∃ res,
      (fetch_outputs mixNet dec1 1 10000 [0, 1]).out = .ok res ∧
      (fetch_outputs mixNet dec1 1 10000 [0, 1]).trace = [[0, 1]] ∧
      (fetch_outputs mixNet dec1 1 10000 [0, 1]).step = 10000 ∧
      res.length = min [0, 1].length [(true, [0]), (false, [1])].length ∧
      ∀ (i : Nat) (h1 : i < [0, 1].length)
        (h2 : i < [(true, [0]), (false, [1])].length),
        res[i]? =
          some ((dec1 ([0, 1])[i] (([(true, [0]), (false, [1])])[i]).1
            (([(true, [0]), (false, [1])])[i]).2).getD Value.vnull) :=
  C6_per_call_decode_isolation mixNet dec1 0 10000 [0, 1]
    [(true, [0]), (false, [1])] rfl

/-- C5 counterexample.  On the empty input the engine does return
`ok []`, but it is *not* true that no aggregator dispatch happens:
`batch_calls([], step)` yields the single empty batch `[[]]`, so exactly
one aggregate request carrying zero calls is dispatched (the trace is
nonempty). -/
theorem C5_counterexample :
    (run okNet dec0 1 []).out = .ok [] ∧
    (run okNet dec0 1 []).trace ≠ [] := by
  constructor
  · rfl
  · decide

/-- C5 (amended).  `run` on the empty call list returns the empty
result list, but does so by dispatching exactly one aggregate request
containing zero calls (rather than dispatching nothing). -/
theorem C5_empty_input (net : Network) (dec : Decoder) (f : Nat)
    (outs : List (Bool × Bytes))
    (hnet : net [] = DispatchOutcome.ok outs) :
    (run net dec (f + 1) []).out = .ok [] ∧
    (run net dec (f + 1) []).trace = [[]] := by
  have hb : batch_calls [] initial_step = [[]] := rfl
  rw [run, hb]
  simp only [gather, fetch_outputs]
  rw [hnet]
  simp [gather]

/-- C5 witness at the always-succeeding network oracle. -/
theorem C5_empty_input_witness :
    (run okNet dec0 1 []).out = .ok [] ∧
    (run okNet dec0 1 []).trace = [[]] :=
  C5_empty_input okNet dec0 0 [] rfl

lemma batch_calls_single_chunk (calls : List Call) (step : Int)
    (h : (calls.length : Int) - 1 ≤ step) :
    batch_calls calls step = [pySlice calls 0 step] := by
  rw [batch_calls, batchGo]
  simp only [zero_add]
  rw [if_pos h]

lemma fetch_outputs_okNet (dec : Decoder) (fuel : Nat) (hf : fuel ≠ 0)
    (step : Int) (calls : List Call) :
    fetch_outputs okNet dec fuel step calls =
      ⟨step, [calls],
        .ok (calls.map fun c => (dec c true [c]).getD Value.vnull)⟩ := by
  cases fuel with
  | zero => exact absurd rfl hf
  | succ f =>
    simp only [fetch_outputs, okNet]
    rw [zip_map_self, List.map_map]
    rfl

/-- C1 (code bug).  The claim says `run` returns one decoded result
per input call, in input order.  But `batch_calls`'s off-by-one (it exits
when `end >= len(calls) - 1`) silently drops the last call whenever the
final chunk would contain exactly one call: on 10001 calls with the
default step 10000 and every dispatch succeeding, `run` returns only
10000 results. -/
theorem C1_run_drops_last_call :
    ∃ res, (run okNet dec0 1 (List.range 10001)).out = .ok res ∧
      res.length = 10000 ∧ (List.range 10001).length = 10001 := by
  have hb : batch_calls (List.range 10001) initial_step =
      [List.range 10000] := by
    rw [batch_calls_single_chunk _ _ (by norm_num [initial_step])]
    rw [pySlice, pyIdx, pyIdx]
    norm_num [initial_step, List.take_range, Int.toNat_ofNat]
    congr 1
  rw [run, hb]
  simp only [gather]
  rw [fetch_outputs_okNet dec0 1 one_ne_zero]
  simp [gather, dec0]

end Multicall
